import Mathlib

/-!
Verification of the connector synchronization subsystem of the
SaultoMVP1 repository, as a shallow embedding in Lean 4.

The definitions below are translated from the Python sources under
`python_connectors/`:

* `simple_base_connector.py` — `SyncResult`, `SimpleBaseConnector.sync_table`,
  `SimpleBaseConnector.full_sync`, `SimpleBaseConnector.validate_credentials`;
* `postgres_loader.py` — `PostgresLoader.clean_column_name`,
  `PostgresLoader.get_postgres_type`, `PostgresLoader.prepare_value_for_insert`,
  `PostgresLoader.create_table_if_not_exists`, `PostgresLoader.load_data`,
  `PostgresLoader.get_analytics_schema_name`;
* `simple_connector_manager.py` — `SimpleConnectorManager.create_connector`,
  `get_connector`, `sync_connector`, `sync_all_connectors`, `remove_connector`;
* `simple_salesforce_connector.py` — `SimpleSalesforceConnector.make_soql_request`;
* `jira_connector.py` — `JiraConnector.make_paginated_request`.

Modelling conventions: Python dicts carrying records are embedded as
association lists in iteration order; external I/O (HTTP responses,
re-authentication outcomes, database credential lookups) is passed in as
explicit environment parameters; `while` loops are embedded as
fuel-indexed recursions where `none` means the fuel ran out with the loop
still running; wall-clock timestamps (`start_time`, `end_time`,
`datetime.utcnow()`) are passed in or omitted, since the claims under
study do not constrain them.
-/

set_option autoImplicit false

namespace Saulto

/-- A Python value as it occurs in extracted records: the closed set of
shapes that `PostgresLoader.get_postgres_type` and
`prepare_value_for_insert` dispatch on via `isinstance`.  Float, datetime
and the payloads of nested structures are carried as their textual
representation, which is all the loader ever does with them. -/
inductive Value where
  | null : Value
  | bool (b : Bool) : Value
  | int (n : Int) : Value
  | float (repr : String) : Value
  | str (s : String) : Value
  | datetime (iso : String) : Value
  | obj (fields : List (String × Value)) : Value
  | arr (elems : List Value) : Value
deriving Repr

/-- An extracted record: a flat mapping of field name to value, in dict
iteration order. -/
abbrev Rec := List (String × Value)

/-- Model of `PostgresLoader.clean_column_name`, per character: the chain
of single-character replaces (space, dash and dot each replaced by an
underscore) followed by `.lower()` acts independently on each character (ASCII lowering, which is
the case relevant to identifier cleaning). -/
def cleanChar (c : Char) : Char :=
  let c2 := if c = ' ' ∨ c = '-' ∨ c = '.' then '_' else c
  c2.toLower

/-- Model of `PostgresLoader.clean_column_name`: replace spaces, dashes
and dots by underscores, then lowercase. -/
def cleanColumnName (s : String) : String :=
  String.mk (s.data.map cleanChar)

/-- Model of `PostgresLoader.get_postgres_type`: PostgreSQL type inferred from a
Python value by `isinstance` dispatch. -/
def getPostgresType (v : Value) : String :=
  match v with
  | .null => "TEXT"
  | .bool _ => "BOOLEAN"
  | .int _ => "BIGINT"
  | .float _ => "NUMERIC"
  | .datetime _ => "TIMESTAMP"
  | .obj _ => "JSONB"
  | .arr _ => "JSONB"
  | .str _ => "TEXT"

/-- Model of Python `str.join` with the comma-space separator, used for the aggregated error message of
`full_sync` and the missing-credentials message of
`validate_credentials`. -/
def joinComma : List String → String
  | [] => ""
  | [s] => s
  | s :: rest => s ++ ", " ++ joinComma rest

/-- The `SyncResult` dataclass of `simple_base_connector.py`
(the wall-clock fields `start_time` and `end_time` are omitted:
no claim constrains them). -/
structure SyncResult where
  success : Bool
  records_synced : Nat
  tables_synced : List String
  error_message : Option String
deriving Repr, DecidableEq

/-- The per-table loop of `full_sync`: for each table call
`sync_table(table, incremental=True)`; on success accumulate the record
count and append to `synced_tables`, otherwise append to
`failed_tables`.  `syncTable` is the behaviour of `self.sync_table`
(its `Bool` argument is the `incremental` flag it receives).
Returns `(total_records, synced_tables, failed_tables)`. -/
def syncLoop (syncTable : String → Bool → Bool × Nat) :
    List String → Nat × List String × List String → Nat × List String × List String
  | [], acc => acc
  | t :: rest, (total, synced, failed) =>
    let r := syncTable t true
    if r.1 then
      syncLoop syncTable rest (total + r.2, synced ++ [t], failed)
    else
      syncLoop syncTable rest (total, synced, failed ++ [t])

/-- Model of `SimpleBaseConnector.full_sync` over an explicit table list: runs the
per-table loop and aggregates into a `SyncResult` with
`success = (len(failed_tables) == 0)` and, when some table failed,
`error_message = "Failed to sync tables: " + ", ".join(failed_tables)`. -/
def fullSync (syncTable : String → Bool → Bool × Nat) (tables : List String) : SyncResult :=
  let r := syncLoop syncTable tables (0, [], [])
  { success := r.2.2.isEmpty
    records_synced := r.1
    tables_synced := r.2.1
    error_message :=
      if r.2.2.isEmpty then none
      else some ("Failed to sync tables: " ++ joinComma r.2.2) }

/-- Outcome of `PostgresLoader.load_data` as observed by its caller:
either a normal return with the number of records loaded, or a raised
store error (`load_data` re-raises unrecoverable store errors). -/
inductive LoadOutcome where
  | ok (records_loaded : Nat)
  | err (msg : String)

/-- Model of `SimpleBaseConnector.sync_table`, given the already-extracted data
and the behaviour of the loader (the PostgreSQL loader is present, the
configuration the store-error claims are about).  Empty extraction
returns `(True, 0)`; a successful load returns `(True, records_loaded)`;
a load that raises is caught and the method still returns
`(True, len(data))` — the source comment reads: still return success if
data was extracted, even if PostgreSQL load failed. -/
def syncTable (data : List Rec) (load : LoadOutcome) : Bool × Nat :=
  if data.isEmpty then (true, 0)
  else
    match load with
    | .ok n => (true, n)
    | .err _ => (true, data.length)

/-- A one-record extraction batch used as a concrete input. -/
def exBatch1 : List Rec := [[("Id", Value.str ("1"))]]

/-- A one-record batch whose single key needs cleaning. -/
def exBatchDeal : List Rec := [[("Deal Name", Value.str ("Acme"))]]

/-! ### Salesforce pagination (`SimpleSalesforceConnector.make_soql_request`) -/

/-- One HTTP response observed by one iteration of the pagination loop of
`make_soql_request`.  `page` is a 200 response whose JSON has a
`records` field (with `done` and `nextRecordsUrl`); `noRecordsField` is
a 200 response without one (the loop else-branch breaks);
`unauthorized` is status 401; `httpError` is a network failure or a
`raise_for_status` exception. -/
inductive SfResp where
  | page (records : List Rec) (done : Bool) (nextUrl : Option String)
  | noRecordsField
  | unauthorized
  | httpError

/-- State of the `while` loop in `make_soql_request`: how many HTTP query
requests and `authenticate()` calls have been made (indices into the
environment), `records_retrieved`, and `all_records`. -/
structure SoqlState where
  reqIdx : Nat
  authIdx : Nat
  retrieved : Nat
  acc : List Rec

/-- Removal of the Salesforce `attributes` metadata field from one
record (the clean-records pass inside `make_soql_request`). -/
def stripAttributes (r : Rec) : Rec :=
  r.filter (fun kv => kv.1 ≠ "attributes")

/-- The `while url and records_retrieved < max_records` loop of
`make_soql_request`, fuel-indexed (`none` = the fuel ran out with the
loop still running).  `env i` is the response to the i-th HTTP query
request; `auth j` is the outcome of the j-th `authenticate()` call.
On 401 the connector re-authenticates and, if that succeeds, retries
(`continue`) with no retry bound; if re-authentication fails it breaks
and returns `all_records`.  Any exception (network failure or a non-2xx
raised by `raise_for_status`) is caught by the `except` wrapping the
whole loop, which returns the empty list. -/
def soqlLoop (env : Nat → SfResp) (auth : Nat → Bool) (maxRecords : Nat) :
    Nat → SoqlState → Option (List Rec)
  | 0, _ => none
  | fuel + 1, s =>
    if s.retrieved < maxRecords then
      match env s.reqIdx with
      | .unauthorized =>
        if auth s.authIdx then
          soqlLoop env auth maxRecords fuel
            { s with reqIdx := s.reqIdx + 1, authIdx := s.authIdx + 1 }
        else
          some s.acc
      | .httpError => some []
      | .noRecordsField => some s.acc
      | .page records done nextUrl =>
        let s2 : SoqlState :=
          { reqIdx := s.reqIdx + 1, authIdx := s.authIdx,
            retrieved := s.retrieved + records.length,
            acc := s.acc ++ records.map stripAttributes }
        if done ∨ nextUrl = none then some s2.acc
        else soqlLoop env auth maxRecords fuel s2
    else
      some s.acc

/-- Model of `make_soql_request`: the initial-authentication preamble (if no
access token is stored and `authenticate()` fails, return the empty
list) followed by the pagination loop.  `max_records` defaults to
2000 in the source. -/
def makeSoqlRequest (env : Nat → SfResp) (auth : Nat → Bool) (hasToken : Bool)
    (maxRecords : Nat) (fuel : Nat) : Option (List Rec) :=
  if hasToken then
    soqlLoop env auth maxRecords fuel ⟨0, 0, 0, []⟩
  else if auth 0 then
    soqlLoop env auth maxRecords fuel ⟨0, 1, 0, []⟩
  else
    some []

/-- A persistently-401 API: every query request answers 401. -/
def env401 : Nat → SfResp := fun _ => SfResp.unauthorized

/-- Re-authentication that always succeeds. -/
def authAlways : Nat → Bool := fun _ => true

/-- An API that serves one page with one record and then fails with a
network error on the next page request. -/
def sfEnvPartial : Nat → SfResp := fun i =>
  if i = 0 then SfResp.page exBatch1 false (some ("/next")) else SfResp.httpError

/-! ### Jira pagination (`JiraConnector.make_paginated_request`) -/

/-- One response observed by one iteration of the pagination loop of
`make_paginated_request`: a parsed page (the `issues`, `values` and
direct-array response shapes all yield a results list and a total), or
an exception during the page fetch. -/
inductive JiraResp where
  | page (results : List Rec) (total : Nat)
  | httpError

/-- State of the `while True` loop of `make_paginated_request`. -/
structure JiraState where
  pageIdx : Nat
  startAt : Nat
  acc : List Rec

/-- The `while True` loop of `make_paginated_request`, fuel-indexed.
`env i` is the response to the i-th page request (`max_results = 100`
per page).  An exception during one page fetch is caught inside the
loop and breaks, returning `all_results` accumulated so far; a short
page or reaching `total` breaks; the safety check breaks once
`start_at` would exceed 10000. -/
def jiraLoop (env : Nat → JiraResp) : Nat → JiraState → Option (List Rec)
  | 0, _ => none
  | fuel + 1, s =>
    match env s.pageIdx with
    | .httpError => some s.acc
    | .page results total =>
      let acc2 := s.acc ++ results
      if results.length < 100 ∨ acc2.length ≥ total then some acc2
      else
        let sa2 := s.startAt + 100
        if sa2 > 10000 then some acc2
        else jiraLoop env fuel ⟨s.pageIdx + 1, sa2, acc2⟩

/-- Model of `make_paginated_request` from the initial state. -/
def makePaginatedRequest (env : Nat → JiraResp) (fuel : Nat) : Option (List Rec) :=
  jiraLoop env fuel ⟨0, 0, []⟩

/-! ### Credential validation and the connector manager
(`simple_connector_manager.py`, `SimpleBaseConnector.validate_credentials`) -/

/-- Outcome of the `test_connection()` probe inside
`validate_credentials`: a returned boolean, or a raised exception
(caught and turned into an error message). -/
inductive ProbeOutcome where
  | ret (b : Bool)
  | raised (msg : String)

/-- The missing-credential scan of `validate_credentials`: a required
key is missing when it is not in the credential map or its value is
falsy (the empty string, for string-valued credentials). -/
def missingCreds (required : List String) (creds : List (String × String)) : List String :=
  required.filter fun k =>
    match creds.lookup k with
    | none => true
    | some v => decide (v = "")

/-- Model of `SimpleBaseConnector.validate_credentials`: report the missing keys
before any network call; only with all required keys present does it
run the `test_connection()` probe. -/
def validateCredentials (required : List String) (creds : List (String × String))
    (probe : ProbeOutcome) : Bool × String :=
  let missing := missingCreds required creds
  if missing.isEmpty then
    match probe with
    | .ret true => (true, "Credentials validated successfully")
    | .ret false => (false, "Failed to authenticate with API")
    | .raised m => (false, "Error validating credentials: " ++ m)
  else
    (false, "Missing credentials: " ++ joinComma missing)

/-- Model of `SimpleSalesforceConnector.required_credentials`. -/
def salesforceRequiredCredentials : List String :=
  ["client_id", "client_secret", "username", "password", "security_token", "instance_url"]

/-- Modelled from the spec: `SimpleJiraConnector`
(`simple_jira_connector.py`) is imported by the manager and registered
as the `jira` connector type, but its source file is not present; the
spec declares that the issue-tracker connector requires
`{server_url, username, api_token}` (the non-simple `JiraConnector`
present in the sources declares the same list). -/
def simpleJiraRequiredCredentials : List String :=
  ["server_url", "username", "api_token"]

/-- Model of `SimpleConnectorManager.CONNECTOR_REGISTRY`, reduced to the data the
claims need: the required-credential list per registered connector
type. -/
def CONNECTOR_REGISTRY : List (String × List String) :=
  [("salesforce", salesforceRequiredCredentials),
   ("jira", simpleJiraRequiredCredentials)]

/-- A live connector instance as the manager sees it: the behaviour of
`get_available_tables()` and of `sync_table` (the data the sync paths
consume). -/
structure ConnectorInst where
  availableTables : List String
  syncTable : String → Bool → Bool × Nat

/-- The cache key built by the manager: the company id, an underscore,
and the connector type. -/
def connectorKey (companyId : Nat) (connectorType : String) : String :=
  toString companyId ++ "_" ++ connectorType

/-- The manager state: the `active_connectors` in-memory map (as an
association list in which the most recent binding shadows older
ones). -/
structure ManagerState where
  active : List (String × ConnectorInst)

/-- Model of `SimpleConnectorManager.create_connector`: unknown type is a failure
tuple; otherwise instantiate (the constructed instance is the `inst`
parameter) and validate; cache only on success.  Returns the new state
with the success flag and message. -/
def createConnector (st : ManagerState) (connectorType : String) (companyId : Nat)
    (creds : List (String × String)) (inst : ConnectorInst) (probe : ProbeOutcome) :
    ManagerState × Bool × String :=
  match CONNECTOR_REGISTRY.lookup connectorType with
  | none => (st, false, "Unknown connector type: " ++ connectorType)
  | some required =>
    let v := validateCredentials required creds probe
    if v.1 then
      ({ active := (connectorKey companyId connectorType, inst) :: st.active },
       true, "Connector created successfully")
    else
      (st, false, v.2)

/-- Model of `SimpleConnectorManager.get_connector`: a cache hit returns the
instance; on a cache miss the manager tries to load credentials from
the database (`dbCreds`; `none` also covers a raised database error,
which is caught) and, if found, runs `create_connector` and returns
whatever the cache then holds under the key (the source checks the
truthiness of the returned tuple, which is always true, and then reads
the cache with `.get`, so a failed creation still yields `None`
here). -/
def getConnector (st : ManagerState) (companyId : Nat) (connectorType : String)
    (dbCreds : Option (List (String × String))) (dbInst : ConnectorInst)
    (probe : ProbeOutcome) : Option ConnectorInst :=
  match st.active.lookup (connectorKey companyId connectorType) with
  | some c => some c
  | none =>
    match dbCreds with
    | none => none
    | some creds =>
      let r := createConnector st connectorType companyId creds dbInst probe
      r.1.active.lookup (connectorKey companyId connectorType)

/-- Model of `SimpleConnectorManager.sync_connector`: an unresolvable connector
yields a failed `SyncResult` with message "Connector not found"; an
omitted table list defaults to `get_available_tables()`; otherwise the
result of `full_sync` is returned. -/
def syncConnector (st : ManagerState) (companyId : Nat) (connectorType : String)
    (dbCreds : Option (List (String × String))) (dbInst : ConnectorInst)
    (probe : ProbeOutcome) (tables : Option (List String)) : SyncResult :=
  match getConnector st companyId connectorType dbCreds dbInst probe with
  | none =>
    { success := false, records_synced := 0, tables_synced := [],
      error_message := some ("Connector not found") }
  | some c => fullSync c.syncTable (tables.getD c.availableTables)

/-- Model of `SimpleConnectorManager.remove_connector`: delete the cache entry if
present (returning whether an entry was removed). -/
def removeConnector (st : ManagerState) (companyId : Nat) (connectorType : String) :
    ManagerState × Bool :=
  if (st.active.lookup (connectorKey companyId connectorType)).isSome then
    ({ active := st.active.filter
        (fun p => p.1 ≠ connectorKey companyId connectorType) }, true)
  else
    (st, false)

/-- An arbitrary concrete connector instance. -/
def exConnectorInst : ConnectorInst :=
  { availableTables := ["deals"], syncTable := fun _ _ => (true, 3) }

/-- The empty manager state. -/
def exEmptyState : ManagerState := { active := [] }

/-- A manager state with one cached Salesforce connector for company 1. -/
def exActiveState : ManagerState :=
  { active := [(connectorKey 1 ("salesforce"), exConnectorInst)] }

/-- A credential map for Salesforce missing every required key except
`client_id` (and carrying an empty `client_secret`). -/
def exCredsPartial : List (String × String) :=
  [("client_id", "abc"), ("client_secret", "")]

/-! ### Extract-call traces (for the incremental-only claim) -/

/-- The `(table, incremental)` argument pairs with which `full_sync`
invokes `extract_data`: the loop body calls
`self.sync_table(table, incremental=True)` and `sync_table` forwards
its `incremental` argument unchanged to `extract_data`. -/
def fullSyncExtractCalls : List String → List (String × Bool)
  | [] => []
  | t :: rest => (t, true) :: fullSyncExtractCalls rest

/-- The `extract_data` calls performed by `sync_connector`: none when
the connector cannot be resolved, otherwise those of `full_sync` over
the requested (or default) tables. -/
def syncConnectorExtractCalls (st : ManagerState) (companyId : Nat)
    (connectorType : String) (dbCreds : Option (List (String × String)))
    (dbInst : ConnectorInst) (probe : ProbeOutcome)
    (tables : Option (List String)) : List (String × Bool) :=
  match getConnector st companyId connectorType dbCreds dbInst probe with
  | none => []
  | some c => fullSyncExtractCalls (tables.getD c.availableTables)

/-- The connector types `sync_all_connectors` iterates for a company:
the cached keys starting with the company id and an underscore, with
that leading part split off at the first underscore. -/
def companyConnectorTypes (st : ManagerState) (companyId : Nat) : List String :=
  ((st.active.map Prod.fst).filter
      (fun k => (toString companyId ++ "_").isPrefixOf k)).map
    (fun k => k.drop (toString companyId ++ "_").length)

/-- The `extract_data` calls performed by `sync_all_connectors`: those
of `sync_connector` (with no explicit table list) for each cached
connector type of the company. -/
def syncAllConnectorsExtractCalls (st : ManagerState) (companyId : Nat)
    (dbCreds : Option (List (String × String))) (dbInst : ConnectorInst)
    (probe : ProbeOutcome) : List (String × Bool) :=
  (companyConnectorTypes st companyId).foldl
    (fun acc connectorType =>
      acc ++ syncConnectorExtractCalls st companyId connectorType
        dbCreds dbInst probe none)
    []

/-! ### The PostgreSQL loader (`postgres_loader.py`) -/

/-- Model of `PostgresLoader.get_analytics_schema_name`: the literal
`analytics_company_` followed by the company id. -/
def getAnalyticsSchemaName (companyId : Nat) : String :=
  "analytics_company_" ++ toString companyId

/-- Python `str.lower()` for the table-name lowering in `load_data`
(per-character ASCII lowering). -/
def lowerString (s : String) : String :=
  String.mk (s.data.map Char.toLower)

/-- Insert a key into the running distinct-key list if new (set/dict-key
semantics with stable first-occurrence order; the order is irrelevant
after sorting). -/
def addKey (ks : List String) (k : String) : List String :=
  if k ∈ ks then ks else ks ++ [k]

/-- Collect the cleaned keys of one record into the running list. -/
def collectRecordKeys : List String → Rec → List String
  | ks, [] => ks
  | ks, kv :: rest => collectRecordKeys (addKey ks (cleanColumnName kv.1)) rest

/-- Collect the cleaned keys of all records of the batch (the
first pass over `data` in both `create_table_if_not_exists` and
`load_data`). -/
def collectKeys : List String → List Rec → List String
  | ks, [] => ks
  | ks, r :: rs => collectKeys (collectRecordKeys ks r) rs

/-- Sorted insertion into a sorted list of strings. -/
def insertSorted (x : String) : List String → List String
  | [] => [x]
  | y :: ys => if x ≤ y then x :: y :: ys else y :: insertSorted x ys

/-- Python `sorted(...)` on strings: lexicographic by code point. -/
def sortStrings (l : List String) : List String :=
  l.foldr insertSorted []

/-- The data-column definitions generated by
`create_table_if_not_exists`: one column per distinct cleaned key
observed across the batch, every one typed `TEXT` (the source comment
reads: use TEXT as default type for flexible data handling), in sorted
order. -/
def dataColumnDefs (data : List Rec) : List (String × String) :=
  (sortStrings (collectKeys [] data)).map (fun k => (k, "TEXT"))

/-- The metadata column definitions appended by
`create_table_if_not_exists`. -/
def metadataColumnDefs : List (String × String) :=
  [("loaded_at", "TIMESTAMP DEFAULT CURRENT_TIMESTAMP"),
   ("source_system", "VARCHAR(100)"),
   ("company_id", "BIGINT")]

/-- The full column-definition list of the `CREATE TABLE IF NOT EXISTS`
statement. -/
def createTableColumnDefs (data : List Rec) : List (String × String) :=
  dataColumnDefs data ++ metadataColumnDefs

/-- A value as it reaches the parameterized INSERT: `None`, a string (to
which `prepare_value_for_insert` converts every non-null value), or the
raw datetime / integer that the metadata assignments store. -/
inductive DbValue where
  | null
  | text (s : String)
  | timestamp (iso : String)
  | intVal (n : Int)
deriving Repr, DecidableEq

mutual

/-- Model of `json.dumps` on the embedded values (used by
`prepare_value_for_insert` for nested structures; no claim depends on
the serialized text). -/
def jsonDumps : Value → String
  | .null => "null"
  | .bool b => if b then "true" else "false"
  | .int n => toString n
  | .float r => r
  | .str s => "\"" ++ s ++ "\""
  | .datetime t => "\"" ++ t ++ "\""
  | .obj fields => "\x7b" ++ jsonDumpsFields fields ++ "\x7d"
  | .arr elems => "[" ++ jsonDumpsElems elems ++ "]"

/-- Serialize the fields of a nested object. -/
def jsonDumpsFields : List (String × Value) → String
  | [] => ""
  | [kv] => "\"" ++ kv.1 ++ "\": " ++ jsonDumps kv.2
  | kv :: rest => "\"" ++ kv.1 ++ "\": " ++ jsonDumps kv.2 ++ ", " ++ jsonDumpsFields rest

/-- Serialize the elements of a nested array. -/
def jsonDumpsElems : List Value → String
  | [] => ""
  | [v] => jsonDumps v
  | v :: rest => jsonDumps v ++ ", " ++ jsonDumpsElems rest

end

/-- Model of `PostgresLoader.prepare_value_for_insert`: `None` passes through,
nested structures are JSON-serialized, booleans become
`str(value).lower()`, numbers and datetimes are stringified, and
everything else is `str(value)`. -/
def prepareValue : Value → DbValue
  | .null => .null
  | .obj fields => .text (jsonDumps (.obj fields))
  | .arr elems => .text (jsonDumps (.arr elems))
  | .bool b => .text (if b then "true" else "false")
  | .int n => .text (toString n)
  | .float r => .text r
  | .datetime iso => .text iso
  | .str s => .text s

/-- The columns of the INSERT in `load_data`: all cleaned record keys
plus the three metadata columns, sorted for consistency. -/
def loadColumns (data : List Rec) : List String :=
  sortStrings
    ((["loaded_at", "source_system", "company_id"]).foldl addKey (collectKeys [] data))

/-- One record with its keys cleaned and its values prepared, in
iteration order (later duplicate cleaned keys overwrite earlier ones,
as repeated dict assignment does). -/
def preparedAssoc (r : Rec) : List (String × DbValue) :=
  r.map (fun kv => (cleanColumnName kv.1, prepareValue kv.2))

/-- Last-write-wins lookup, matching repeated dict assignment. -/
def lookupLast (key : String) : List (String × DbValue) → Option DbValue
  | [] => none
  | kv :: rest =>
    match lookupLast key rest with
    | some v => some v
    | none => if kv.1 = key then some kv.2 else none

/-- The final value of `row_data[col]` for one record in `load_data`:
every column starts as `None`, record values are filled in under their
cleaned names, and at the end the three metadata assignments overwrite
`loaded_at`, `source_system` and `company_id` from the arguments of the loader
itself. -/
def rowCell (r : Rec) (sourceSystem : String) (companyId : Nat) (now : String)
    (col : String) : DbValue :=
  if col = "loaded_at" then .timestamp now
  else if col = "source_system" then .text sourceSystem
  else if col = "company_id" then .intVal (companyId : Int)
  else
    match lookupLast col (preparedAssoc r) with
    | some v => v
    | none => .null

/-- The batched INSERT that `load_data` issues: target schema and table,
column list, and one positional value tuple per record. -/
structure LoadPlan where
  schemaName : String
  fullTableName : String
  columns : List String
  rows : List (List DbValue)
  recordsLoaded : Nat

/-- Model of `PostgresLoader.load_data` on a non-empty batch (`none` models the
empty-input early return of 0, which performs no store operation): the
schema is the tenant schema of `company_id`, the table name is
the schema name, a dot, and the lowered table name, and each record
contributes
one row with the values of `rowCell`.  `now` is the
`datetime.utcnow()` of the metadata assignment. -/
def loadData (tableName : String) (data : List Rec) (sourceSystem : String)
    (companyId : Nat) (now : String) : Option LoadPlan :=
  if data.isEmpty then none
  else
    let schema := getAnalyticsSchemaName companyId
    let cols := loadColumns data
    some
      { schemaName := schema,
        fullTableName := schema ++ "." ++ lowerString tableName,
        columns := cols,
        rows := data.map (fun r => cols.map (rowCell r sourceSystem companyId now)),
        recordsLoaded := data.length }

/-- The per-table outcome map of the worked example in the spec:
table A succeeds with 10 records, B fails, C succeeds with 5 records. -/
def exOutcomeABC : String → Bool → Bool × Nat := fun t _ =>
  if t = "A" then (true, 10) else if t = "C" then (true, 5) else (false, 0)

/-- The per-table loop of `full_sync` with an arbitrary accumulator:
closed form as a filter/sum over the table list. -/
theorem syncLoop_eq (st : String → Bool → Bool × Nat) (tables : List String)
    (total : Nat) (synced failed : List String) :
    syncLoop st tables (total, synced, failed) =
      (total + ((tables.filter fun t => (st t true).1).map fun t => (st t true).2).sum,
       synced ++ tables.filter (fun t => (st t true).1),
       failed ++ tables.filter (fun t => !(st t true).1)) := by
  induction tables generalizing total synced failed with
  | nil => simp [syncLoop]
  | cons t rest ih =>
    simp only [syncLoop]
    cases h : (st t true).1 <;>
      simp [h, ih, List.filter_cons, Nat.add_assoc, List.append_assoc]

/-- The result of Python `", ".join(l)` contains each element of `l` as a
substring. -/
theorem joinComma_infix_of_mem (l : List String) (t : String) (h : t ∈ l) :
    t.data <:+: (joinComma l).data := by
  induction l with
  | nil => cases h
  | cons s rest ih =>
    cases rest with
    | nil =>
      rcases List.mem_singleton.mp h with rfl
      exact List.infix_refl _
    | cons r rs =>
      rcases List.mem_cons.mp h with rfl | hmem
      · show t.data <:+: (t ++ ", " ++ joinComma (r :: rs)).data
        rw [String.data_append, String.data_append]
        exact ((List.prefix_append t.data _).trans
          (List.prefix_append _ _)).isInfix
      · show t.data <:+: (s ++ ", " ++ joinComma (r :: rs)).data
        rw [String.data_append]
        exact (ih hmem).trans (List.suffix_append _ _).isInfix

/-- In `full_sync`, a table whose `sync_table` call reports failure is
named (as a substring) in the aggregated error message. -/
theorem fullSync_failed_mem_error (st : String → Bool → Bool × Nat)
    (tables : List String) (t : String) (hmem : t ∈ tables)
    (hfail : (st t true).1 = false) :
    ∃ m, (fullSync st tables).error_message = some m ∧ t.data <:+: m.data := by
  have hloop := syncLoop_eq st tables 0 [] []
  have hfl : t ∈ tables.filter (fun t => !(st t true).1) :=
    List.mem_filter.mpr ⟨hmem, by simp [hfail]⟩
  have hne : ¬ (tables.filter (fun t => !(st t true).1)).isEmpty := by
    simp only [List.isEmpty_iff]
    intro hnil
    rw [hnil] at hfl
    cases hfl
  refine ⟨"Failed to sync tables: " ++ joinComma (tables.filter fun t => !(st t true).1),
    ?_, ?_⟩
  · simp [fullSync, hloop, hne]
  · rw [String.data_append]
    exact (joinComma_infix_of_mem _ t hfl).trans (List.suffix_append _ _).isInfix

/-- C1: for every sync invocation over a list of tables, the returned
`SyncResult` satisfies: `success` is true iff no table in the list
failed; `records_synced` is the sum of the per-table record counts of
the tables that succeeded; `tables_synced` contains exactly the tables
that succeeded, in sync order; every failed table name appears in the
aggregated `error_message`; and `error_message` is absent when no table
failed. -/
theorem c1_sync_result_aggregation (st : String → Bool → Bool × Nat) (tables : List String) :
    ((fullSync st tables).success = true ↔ ∀ t ∈ tables, (st t true).1 = true) ∧
    (fullSync st tables).records_synced =
      ((tables.filter fun t => (st t true).1).map fun t => (st t true).2).sum ∧
    (fullSync st tables).tables_synced = tables.filter (fun t => (st t true).1) ∧
    (∀ t ∈ tables, (st t true).1 = false →
      ∃ m, (fullSync st tables).error_message = some m ∧ t.data <:+: m.data) ∧
    ((∀ t ∈ tables, (st t true).1 = true) → (fullSync st tables).error_message = none) := by
  have hloop := syncLoop_eq st tables 0 [] []
  refine ⟨?_, ?_, ?_, ?_, ?_⟩
  · simp [fullSync, hloop, List.isEmpty_iff, List.filter_eq_nil_iff]
  · simp [fullSync, hloop]
  · simp [fullSync, hloop]
  · exact fun t hmem hfail => fullSync_failed_mem_error st tables t hmem hfail
  · intro hall
    have : tables.filter (fun t => !(st t true).1) = [] :=
      List.filter_eq_nil_iff.mpr (by intro a ha; simp [hall a ha])
    simp [fullSync, hloop, this]

/-- Witness for C1 at the worked example of the spec: the failed table
`B` is named in the aggregated error message. -/
theorem c1_sync_result_aggregation_witness :
    ("B" : String) ∈ ["A", "B", "C"] ∧ (exOutcomeABC ("B") true).1 = false ∧
    ∃ m, (fullSync exOutcomeABC ["A", "B", "C"]).error_message = some m ∧
      ("B").data <:+: m.data :=
  ⟨by decide, by decide,
    (c1_sync_result_aggregation exOutcomeABC ["A", "B", "C"]).2.2.2.1 ("B")
      (by decide) (by decide)⟩

/-- C2 counterexample: a table whose extraction succeeds (one record)
but whose load raises a store error is NOT recorded as a per-table
failure.  `sync_table` returns `(True, 1)`, so in a one-table sync the
table remains in `tables_synced`, `success` stays true and
`error_message` is absent — refuting the claim, which requires the table
to be excluded from `tables_synced`, named in `error_message`, and
`success` forced to false. -/
theorem c2_store_error_counterexample :
    syncTable exBatch1 (LoadOutcome.err ("connection failure")) = (true, 1) ∧
    fullSync (fun _ _ => syncTable exBatch1 (LoadOutcome.err ("connection failure")))
        ["deals"] =
      { success := true, records_synced := 1, tables_synced := ["deals"],
        error_message := none } := by
  constructor
  · rfl
  · rfl

/-- C2 amended: a store error raised by the load step is caught inside
`sync_table` (the sync returns normally — it never crashes the process
and never escapes the manager), but the table is recorded as a SUCCESS
with `len(data)` records: it stays in `tables_synced`, the aggregate
`success` is not forced to false, and `error_message` stays absent. -/
theorem c2_store_error_amended (data : List Rec) (msg : String) (h : data ≠ []) :
    syncTable data (LoadOutcome.err msg) = (true, data.length) ∧
    ∀ tables : List String,
      (fullSync (fun _ _ => syncTable data (LoadOutcome.err msg)) tables).success = true ∧
      (fullSync (fun _ _ => syncTable data (LoadOutcome.err msg)) tables).tables_synced
        = tables ∧
      (fullSync (fun _ _ => syncTable data (LoadOutcome.err msg)) tables).error_message
        = none := by
  have hst : syncTable data (LoadOutcome.err msg) = (true, data.length) := by
    cases data with
    | nil => exact absurd rfl h
    | cons r rest => simp [syncTable]
  refine ⟨hst, fun tables => ?_⟩
  have hloop := syncLoop_eq (fun _ _ => syncTable data (LoadOutcome.err msg)) tables 0 [] []
  simp only [hst] at hloop
  refine ⟨?_, ?_, ?_⟩ <;> simp [fullSync, hloop, hst, List.filter_true]

/-- Witness for C2 amended at a concrete input. -/
theorem c2_store_error_amended_witness :
    exBatch1 ≠ [] ∧
    syncTable exBatch1 (LoadOutcome.err ("connection failure")) = (true, exBatch1.length) ∧
    (fullSync (fun _ _ => syncTable exBatch1 (LoadOutcome.err ("connection failure")))
      ["deals"]).success = true :=
  ⟨by simp [exBatch1],
   (c2_store_error_amended exBatch1 ("connection failure") (by simp [exBatch1])).1,
   ((c2_store_error_amended exBatch1 ("connection failure") (by simp [exBatch1])).2
     ["deals"]).1⟩

/-- C3 counterexample: in the Salesforce connector, the `except` block
wrapping the whole pagination loop returns the EMPTY list, so a network
error on the second page request discards the record accumulated from
the first, successful page — refuting the claim that the records
accumulated from the k successful pages are returned. -/
theorem c3_partial_results_counterexample :
    makeSoqlRequest sfEnvPartial authAlways true 2000 10 = some [] ∧
    exBatch1.map stripAttributes ≠ [] := by
  refine ⟨rfl, ?_⟩
  intro h
  simp [exBatch1, stripAttributes] at h

/-- C3 amended: the Jira connector catches a page-fetch error inside the
loop and returns exactly the records accumulated so far, but the
Salesforce connector catches it outside the loop and returns the empty
list, discarding the accumulated partial results.  In both connectors
the error is caught (extraction returns normally), so sibling tables of
the same multi-table sync are still attempted: every table of the list
ends up either in `tables_synced` or named in the aggregated error
message. -/
theorem c3_partial_results_amended :
    (∀ (env : Nat → JiraResp) (fuel : Nat) (s : JiraState),
      env s.pageIdx = JiraResp.httpError →
      jiraLoop env (fuel + 1) s = some s.acc) ∧
    (∀ (env : Nat → SfResp) (auth : Nat → Bool) (maxRecords fuel : Nat) (s : SoqlState),
      s.retrieved < maxRecords →
      env s.reqIdx = SfResp.httpError →
      soqlLoop env auth maxRecords (fuel + 1) s = some []) ∧
    (∀ (st : String → Bool → Bool × Nat) (tables : List String) (t : String),
      t ∈ tables →
      t ∈ (fullSync st tables).tables_synced ∨
      ∃ m, (fullSync st tables).error_message = some m ∧ t.data <:+: m.data) := by
  refine ⟨?_, ?_, ?_⟩
  · intro env fuel s h
    simp [jiraLoop, h]
  · intro env auth maxRecords fuel s hlt h
    simp [soqlLoop, hlt, h]
  · intro st tables t hmem
    cases hst : (st t true).1 with
    | true =>
      left
      have hloop := syncLoop_eq st tables 0 [] []
      simp [fullSync, hloop, List.mem_filter, hmem, hst]
    | false =>
      right
      exact fullSync_failed_mem_error st tables t hmem hst

/-- Witness for C3 amended at concrete loop states: a Jira page error
with one record already accumulated keeps that record; a Salesforce
page error with one record already accumulated returns the empty list;
and in the worked example of the spec the successful sibling `A` of the
failing `B` was still attempted and synced. -/
theorem c3_partial_results_amended_witness :
    (fun _ => JiraResp.httpError) (1 : Nat) = JiraResp.httpError ∧
    jiraLoop (fun _ => JiraResp.httpError) 1 ⟨1, 100, exBatch1⟩ = some exBatch1 ∧
    (1 : Nat) < 2000 ∧ sfEnvPartial 1 = SfResp.httpError ∧
    soqlLoop sfEnvPartial authAlways 2000 1 ⟨1, 0, 1, exBatch1⟩ = some [] ∧
    ("A" : String) ∈ ["A", "B", "C"] ∧
    (("A" : String) ∈ (fullSync exOutcomeABC ["A", "B", "C"]).tables_synced ∨
      ∃ m, (fullSync exOutcomeABC ["A", "B", "C"]).error_message = some m ∧
        ("A").data <:+: m.data) :=
  ⟨rfl,
   c3_partial_results_amended.1 (fun _ => JiraResp.httpError) 0 ⟨1, 100, exBatch1⟩ rfl,
   by decide, rfl,
   c3_partial_results_amended.2.1 sfEnvPartial authAlways 2000 0 ⟨1, 0, 1, exBatch1⟩
     (by decide) rfl,
   by decide,
   c3_partial_results_amended.2.2 exOutcomeABC ["A", "B", "C"] ("A") (by decide)⟩

/-- One 401-response step of the Salesforce pagination loop with a
succeeding re-authentication leaves `records_retrieved` and
`all_records` unchanged, so under a persistently-401 API the loop never
makes progress: it returns no result within ANY fuel bound. -/
theorem soqlLoop_persistent401 (fuel : Nat) :
    ∀ s : SoqlState, s.retrieved < 2000 →
      soqlLoop env401 authAlways 2000 fuel s = none := by
  induction fuel with
  | zero => intro s h; rfl
  | succ n ih =>
    intro s h
    show soqlLoop env401 authAlways 2000 (n + 1) s = none
    simp only [soqlLoop, env401, authAlways, if_pos h, if_true]
    exact ih _ h

/-- C6: the code has NO bound on re-authentication retries — on every
401 it re-authenticates and retries (`continue`), so against an API
that persistently answers 401 while re-authentication keeps succeeding,
`make_soql_request` never terminates (it yields no result for every
fuel bound), contradicting the claim that the refresh step runs at most
once per request and that the page-fetch loop always terminates under a
persistently-401 API. -/
theorem c6_persistent_401_never_terminates :
    ∀ fuel : Nat, makeSoqlRequest env401 authAlways true 2000 fuel = none := by
  intro fuel
  have h := soqlLoop_persistent401 fuel ⟨0, 0, 0, []⟩ (by decide)
  simpa [makeSoqlRequest] using h

/-- Looking up a key in a list from which every pair with that key has
been filtered out finds nothing. -/
theorem lookup_filter_ne (l : List (String × ConnectorInst)) (key : String) :
    (l.filter (fun p => p.1 ≠ key)).lookup key = none := by
  induction l with
  | nil => rfl
  | cons p rest ih =>
    by_cases h : p.1 = key
    · simp [List.filter_cons, h, ih]
      exact fun a b _ hne heq => hne heq.symm
    · simp only [List.filter_cons, decide_not, h, decide_False, Bool.not_false, if_true]
      have hbeq : (key == p.1) = false := by
        simp [beq_iff_eq]
        exact fun he => h he.symm
      simp [List.lookup, hbeq, ih]
      exact fun a b _ hne heq => hne heq.symm

/-- After `remove_connector`, the cache holds no entry under the
removed key. -/
theorem removeConnector_lookup (st : ManagerState) (companyId : Nat)
    (connectorType : String) :
    ((removeConnector st companyId connectorType).1.active).lookup
      (connectorKey companyId connectorType) = none := by
  cases h : st.active.lookup (connectorKey companyId connectorType) with
  | none => simp [removeConnector, h]
  | some c =>
    simp [removeConnector, h, lookup_filter_ne]
    exact fun a b _ hne heq => hne heq.symm

/-- C4: whenever no connector instance can be resolved for a
(tenant, connector-type) pair — the cache misses and the
database fallback yields nothing — `sync_connector` returns the failed
`SyncResult` with success false, zero records, no synced tables and
message "Connector not found" (it is a total function of its inputs, so
no exception reaches the caller); and in particular, after
`remove_connector` the cache lookup misses, so with no database
credentials the same failed result is returned. -/
theorem c4_connector_not_found (st : ManagerState) (companyId : Nat)
    (connectorType : String) (dbCreds : Option (List (String × String)))
    (dbInst : ConnectorInst) (probe : ProbeOutcome) (tables : Option (List String))
    (h : getConnector st companyId connectorType dbCreds dbInst probe = none) :
    syncConnector st companyId connectorType dbCreds dbInst probe tables =
      { success := false, records_synced := 0, tables_synced := [],
        error_message := some ("Connector not found") } ∧
    ∀ st2 : ManagerState,
      syncConnector (removeConnector st2 companyId connectorType).1 companyId
          connectorType none dbInst probe tables =
        { success := false, records_synced := 0, tables_synced := [],
          error_message := some ("Connector not found") } := by
  constructor
  · simp [syncConnector, h]
  · intro st2
    have hres : getConnector (removeConnector st2 companyId connectorType).1
        companyId connectorType none dbInst probe = none := by
      simp [getConnector, removeConnector_lookup]
    simp [syncConnector, hres]

/-- Witness for C4 on the empty manager state with no stored
credentials. -/
theorem c4_connector_not_found_witness :
    getConnector exEmptyState 1 ("salesforce") none exConnectorInst
      (ProbeOutcome.ret true) = none ∧
    syncConnector exEmptyState 1 ("salesforce") none exConnectorInst
        (ProbeOutcome.ret true) (some ["deals"]) =
      { success := false, records_synced := 0, tables_synced := [],
        error_message := some ("Connector not found") } :=
  ⟨rfl,
   (c4_connector_not_found exEmptyState 1 ("salesforce") none exConnectorInst
     (ProbeOutcome.ret true) (some ["deals"]) rfl).1⟩

/-- C7: every registered connector type declares a non-empty
required-credential list; the missing-key scan selects exactly the
required keys that are absent or empty; and `create_connector` over a
credential map with missing keys fails — for EVERY probe outcome, i.e.
before any network call — with the message enumerating exactly the
missing keys, leaving the cache unchanged (the instance is not
cached). -/
theorem c7_missing_credentials_enumerated :
    (∀ p ∈ CONNECTOR_REGISTRY, p.2 ≠ []) ∧
    (∀ (k : String) (required : List String) (creds : List (String × String)),
      k ∈ missingCreds required creds ↔
        k ∈ required ∧ (creds.lookup k = none ∨ creds.lookup k = some (""))) ∧
    (∀ (connectorType : String) (required : List String) (companyId : Nat)
       (creds : List (String × String)) (st : ManagerState) (inst : ConnectorInst)
       (probe : ProbeOutcome),
      CONNECTOR_REGISTRY.lookup connectorType = some required →
      missingCreds required creds ≠ [] →
      createConnector st connectorType companyId creds inst probe =
        (st, false, "Missing credentials: " ++ joinComma (missingCreds required creds))) := by
  refine ⟨by decide, ?_, ?_⟩
  · intro k required creds
    simp only [missingCreds, List.mem_filter]
    cases h : creds.lookup k with
    | none => simp [h]
    | some v => simp [h]
  · intro connectorType required companyId creds st inst probe hreg hne
    have hempty : (missingCreds required creds).isEmpty = false := by
      simp [List.isEmpty_iff, hne]
    simp [createConnector, hreg, validateCredentials, hempty]

/-- Witness for C7: a Salesforce credential map carrying only
`client_id` (and an empty `client_secret`) is rejected with the five
missing keys enumerated, without consulting the probe. -/
theorem c7_missing_credentials_enumerated_witness :
    CONNECTOR_REGISTRY.lookup ("salesforce") = some salesforceRequiredCredentials ∧
    missingCreds salesforceRequiredCredentials exCredsPartial ≠ [] ∧
    createConnector exEmptyState ("salesforce") 1 exCredsPartial exConnectorInst
        (ProbeOutcome.ret true) =
      (exEmptyState, false, "Missing credentials: " ++
        joinComma (missingCreds salesforceRequiredCredentials exCredsPartial)) :=
  ⟨by decide, by decide,
   c7_missing_credentials_enumerated.2.2 ("salesforce") salesforceRequiredCredentials 1
     exCredsPartial exEmptyState exConnectorInst (ProbeOutcome.ret true)
     (by decide) (by decide)⟩

/-- One application of the character-level cleaning step is a fixed
point of a second application: substituting the separators and ASCII
lowering commute into an idempotent map. -/
theorem cleanChar_idem (c : Char) : cleanChar (cleanChar c) = cleanChar c := by
  by_cases hsep : c = ' ' ∨ c = '-' ∨ c = '.'
  · rcases hsep with h | h | h <;> subst h <;> decide
  · have h1 : cleanChar c = c.toLower := by simp [cleanChar, hsep]
    rw [h1]
    by_cases hup : 65 ≤ c.toNat ∧ c.toNat ≤ 90
    · have key : ∀ m ∈ Finset.Icc 65 90,
          cleanChar ((Char.ofNat m).toLower) = (Char.ofNat m).toLower := by decide
      have hc : c = Char.ofNat c.toNat := (Char.ofNat_toNat c).symm
      rw [hc]
      exact key c.toNat (Finset.mem_Icc.mpr hup)
    · have h2 : c.toLower = c := by
        simp only [Char.toLower]
        rw [if_neg]
        intro h
        exact hup ⟨h.1, h.2⟩
      rw [h2, h1, h2]

/-- C8: `clean_column_name` is a deterministic, idempotent function
(it is a pure function of its argument, and applying it twice equals
applying it once), and it maps "Deal Name" to "deal_name". -/
theorem c8_clean_column_name_idempotent :
    (∀ s : String, cleanColumnName (cleanColumnName s) = cleanColumnName s) ∧
    cleanColumnName ("Deal Name") = "deal_name" := by
  constructor
  · intro s
    show String.mk ((s.data.map cleanChar).map cleanChar)
        = String.mk (s.data.map cleanChar)
    rw [List.map_map]
    exact congrArg String.mk (List.map_congr_left (fun a _ => cleanChar_idem a))
  · decide

/-- Every `extract_data` call of the `full_sync` loop carries
`incremental = True`. -/
theorem fullSyncExtractCalls_incremental (tables : List String) :
    ∀ p ∈ fullSyncExtractCalls tables, p.2 = true := by
  induction tables with
  | nil => intro p h; cases h
  | cons t rest ih =>
    intro p h
    rcases List.mem_cons.mp h with rfl | h2
    · rfl
    · exact ih p h2

/-- Membership in a fold that appends one block per element comes from
the initial accumulator or from one of the blocks. -/
theorem mem_foldl_append {α β : Type} (f : α → List β) (l : List α) (acc : List β)
    (b : β) (h : b ∈ l.foldl (fun a x => a ++ f x) acc) :
    b ∈ acc ∨ ∃ x ∈ l, b ∈ f x := by
  induction l generalizing acc with
  | nil => exact Or.inl h
  | cons x xs ih =>
    rcases ih (acc ++ f x) h with hm | ⟨y, hy, hb⟩
    · rcases List.mem_append.mp hm with h1 | h1
      · exact Or.inl h1
      · exact Or.inr ⟨x, List.mem_cons_self x xs, h1⟩
    · exact Or.inr ⟨y, List.mem_cons_of_mem x hy, hb⟩

/-- C9: every table processed through the sync paths of the manager is
extracted incrementally — each `(table, incremental)` pair with which
`sync_connector` or `sync_all_connectors` reaches `extract_data` has
`incremental = true`, for every manager state, tenant, connector type
and caller-supplied table list; no manager-driven path performs a full
backfill. -/
theorem c9_manager_syncs_always_incremental :
    (∀ (st : ManagerState) (companyId : Nat) (connectorType : String)
       (dbCreds : Option (List (String × String))) (dbInst : ConnectorInst)
       (probe : ProbeOutcome) (tables : Option (List String)) (call : String × Bool),
      call ∈ syncConnectorExtractCalls st companyId connectorType dbCreds dbInst
        probe tables →
      call.2 = true) ∧
    (∀ (st : ManagerState) (companyId : Nat)
       (dbCreds : Option (List (String × String))) (dbInst : ConnectorInst)
       (probe : ProbeOutcome) (call : String × Bool),
      call ∈ syncAllConnectorsExtractCalls st companyId dbCreds dbInst probe →
      call.2 = true) := by
  have hsc : ∀ (st : ManagerState) (companyId : Nat) (connectorType : String)
      (dbCreds : Option (List (String × String))) (dbInst : ConnectorInst)
      (probe : ProbeOutcome) (tables : Option (List String)) (call : String × Bool),
      call ∈ syncConnectorExtractCalls st companyId connectorType dbCreds dbInst
        probe tables →
      call.2 = true := by
    intro st companyId connectorType dbCreds dbInst probe tables call h
    unfold syncConnectorExtractCalls at h
    cases hg : getConnector st companyId connectorType dbCreds dbInst probe with
    | none => rw [hg] at h; cases h
    | some c => rw [hg] at h; exact fullSyncExtractCalls_incremental _ call h
  refine ⟨hsc, ?_⟩
  intro st companyId dbCreds dbInst probe call h
  unfold syncAllConnectorsExtractCalls at h
  rcases mem_foldl_append _ _ _ _ h with hm | ⟨ctype, _, hb⟩
  · cases hm
  · exact hsc st companyId ctype dbCreds dbInst probe none call hb

/-- Witness for C9: the one cached Salesforce connector of company 1
syncs its default table `deals`, and the recorded extract call carries
`incremental = true`. -/
theorem c9_manager_syncs_always_incremental_witness :
    (("deals", true) : String × Bool) ∈
      syncConnectorExtractCalls exActiveState 1 ("salesforce") none exConnectorInst
        (ProbeOutcome.ret true) none ∧
    (("deals", true) : String × Bool).2 = true :=
  ⟨by decide,
   c9_manager_syncs_always_incremental.1 exActiveState 1 ("salesforce") none
     exConnectorInst (ProbeOutcome.ret true) none ("deals", true) (by decide)⟩

/-- Membership through one `addKey` insertion. -/
theorem mem_addKey (ks : List String) (k a : String) :
    a ∈ addKey ks k ↔ a = k ∨ a ∈ ks := by
  unfold addKey
  by_cases h : k ∈ ks
  · simp only [h, if_true]
    constructor
    · exact Or.inr
    · rintro (rfl | h2)
      · exact h
      · exact h2
  · simp [h, or_comm]

/-- Membership through the per-record key collection. -/
theorem mem_collectRecordKeys (r : Rec) :
    ∀ (ks : List String) (a : String),
      a ∈ collectRecordKeys ks r ↔
        a ∈ ks ∨ ∃ kv ∈ r, cleanColumnName kv.1 = a := by
  induction r with
  | nil => intro ks a; simp [collectRecordKeys]
  | cons kv rest ih =>
    intro ks a
    rw [collectRecordKeys, ih, mem_addKey]
    constructor
    · rintro ((rfl | h) | ⟨kv2, h2, h3⟩)
      · exact Or.inr ⟨kv, List.mem_cons_self kv rest, rfl⟩
      · exact Or.inl h
      · exact Or.inr ⟨kv2, List.mem_cons_of_mem kv h2, h3⟩
    · rintro (h | ⟨kv2, h2, h3⟩)
      · exact Or.inl (Or.inr h)
      · rcases List.mem_cons.mp h2 with rfl | h4
        · exact Or.inl (Or.inl h3.symm)
        · exact Or.inr ⟨kv2, h4, h3⟩

/-- Membership through the whole-batch key collection. -/
theorem mem_collectKeys (data : List Rec) :
    ∀ (ks : List String) (a : String),
      a ∈ collectKeys ks data ↔
        a ∈ ks ∨ ∃ r ∈ data, ∃ kv ∈ r, cleanColumnName kv.1 = a := by
  induction data with
  | nil => intro ks a; simp [collectKeys]
  | cons r rs ih =>
    intro ks a
    rw [collectKeys, ih, mem_collectRecordKeys]
    constructor
    · rintro ((h | ⟨kv, h2, h3⟩) | ⟨r2, h2, h3⟩)
      · exact Or.inl h
      · exact Or.inr ⟨r, List.mem_cons_self r rs, kv, h2, h3⟩
      · exact Or.inr ⟨r2, List.mem_cons_of_mem r h2, h3⟩
    · rintro (h | ⟨r2, h2, h3⟩)
      · exact Or.inl (Or.inl h)
      · rcases List.mem_cons.mp h2 with rfl | h4
        · exact Or.inl (Or.inr h3)
        · exact Or.inr ⟨r2, h4, h3⟩

/-- Inserting via `addKey` keeps the distinct-key list duplicate-free. -/
theorem nodup_addKey (ks : List String) (k : String) (h : ks.Nodup) :
    (addKey ks k).Nodup := by
  unfold addKey
  by_cases hk : k ∈ ks
  · simpa [hk] using h
  · simp [hk, List.nodup_append, h, List.disjoint_singleton]

/-- The per-record key collection keeps the list duplicate-free. -/
theorem nodup_collectRecordKeys (r : Rec) :
    ∀ ks : List String, ks.Nodup → (collectRecordKeys ks r).Nodup := by
  induction r with
  | nil => intro ks h; exact h
  | cons kv rest ih =>
    intro ks h
    exact ih _ (nodup_addKey ks (cleanColumnName kv.1) h)

/-- The whole-batch key collection keeps the list duplicate-free. -/
theorem nodup_collectKeys (data : List Rec) :
    ∀ ks : List String, ks.Nodup → (collectKeys ks data).Nodup := by
  induction data with
  | nil => intro ks h; exact h
  | cons r rs ih =>
    intro ks h
    exact ih _ (nodup_collectRecordKeys r ks h)

/-- Membership through sorted insertion. -/
theorem mem_insertSorted (x a : String) :
    ∀ l : List String, a ∈ insertSorted x l ↔ a = x ∨ a ∈ l := by
  intro l
  induction l with
  | nil => simp [insertSorted]
  | cons y ys ih =>
    unfold insertSorted
    by_cases h : x ≤ y
    · simp [h]
    · simp only [h, if_false, List.mem_cons, ih]
      tauto

/-- Sorted insertion of a fresh element keeps the list duplicate-free. -/
theorem nodup_insertSorted (x : String) :
    ∀ l : List String, l.Nodup → x ∉ l → (insertSorted x l).Nodup := by
  intro l
  induction l with
  | nil => intro _ _; simp [insertSorted]
  | cons y ys ih =>
    intro hnd hx
    unfold insertSorted
    by_cases h : x ≤ y
    · simp only [h, if_true]
      exact List.nodup_cons.mpr ⟨hx, hnd⟩
    · simp only [h, if_false, List.nodup_cons]
      rcases List.nodup_cons.mp hnd with ⟨hy, hys⟩
      constructor
      · rw [mem_insertSorted]
        rintro (rfl | hmem)
        · exact hx (List.mem_cons_self y ys)
        · exact hy hmem
      · exact ih hys (fun hm => hx (List.mem_cons_of_mem y hm))

/-- Sorting does not change the set of elements. -/
theorem mem_sortStrings (a : String) :
    ∀ l : List String, a ∈ sortStrings l ↔ a ∈ l := by
  intro l
  induction l with
  | nil => simp [sortStrings]
  | cons x xs ih =>
    show a ∈ insertSorted x (sortStrings xs) ↔ a ∈ x :: xs
    rw [mem_insertSorted, List.mem_cons, ih]

/-- Sorting keeps a duplicate-free list duplicate-free. -/
theorem nodup_sortStrings :
    ∀ l : List String, l.Nodup → (sortStrings l).Nodup := by
  intro l
  induction l with
  | nil => intro _; simp [sortStrings]
  | cons x xs ih =>
    intro hnd
    rcases List.nodup_cons.mp hnd with ⟨hx, hxs⟩
    show (insertSorted x (sortStrings xs)).Nodup
    exact nodup_insertSorted x (sortStrings xs) (ih hxs)
      (fun hm => hx ((mem_sortStrings x xs).mp hm))

/-- C5 counterexample: on the first load of a batch holding an integer
value, the created column is typed `TEXT`, not the `BIGINT` that the
claimed per-value type inference (`get_postgres_type`) would assign —
`create_table_if_not_exists` types every data column `TEXT` and never
consults `get_postgres_type`. -/
theorem c5_type_inference_counterexample :
    dataColumnDefs [[("n", Value.int 5)]] = [("n", "TEXT")] ∧
    getPostgresType (Value.int 5) = "BIGINT" ∧
    ("TEXT" : String) ≠ "BIGINT" := by
  refine ⟨by decide, rfl, by decide⟩

/-- C5 amended: on the first load of a (tenant, table) pair the created
table has one column per distinct normalized key observed across the
batch (sorted, no duplicates), but every data column is typed `TEXT`
regardless of the values (the type-inference helper exists in the
loader yet is not used for table creation), plus exactly the three
metadata columns `loaded_at`, `source_system` and `company_id`. -/
theorem c5_create_table_amended (data : List Rec) :
    (∀ cd ∈ dataColumnDefs data, cd.2 = "TEXT") ∧
    ((dataColumnDefs data).map Prod.fst).Nodup ∧
    (∀ c : String, c ∈ (dataColumnDefs data).map Prod.fst ↔
      ∃ r ∈ data, ∃ kv ∈ r, cleanColumnName kv.1 = c) ∧
    createTableColumnDefs data = dataColumnDefs data ++ metadataColumnDefs := by
  have hfst : (dataColumnDefs data).map Prod.fst = sortStrings (collectKeys [] data) := by
    simp only [dataColumnDefs, List.map_map]
    have hcomp : (Prod.fst ∘ fun k : String => (k, "TEXT")) = id := rfl
    rw [hcomp, List.map_id]
  refine ⟨?_, ?_, ?_, rfl⟩
  · intro cd hcd
    rcases List.mem_map.mp hcd with ⟨k, _, rfl⟩
    rfl
  · rw [hfst]
    exact nodup_sortStrings _ (nodup_collectKeys data [] List.nodup_nil)
  · intro c
    rw [hfst, mem_sortStrings, mem_collectKeys]
    simp

/-- Witness for C5 amended: the cleaned `Deal Name` column of a concrete
batch is typed `TEXT`. -/
theorem c5_create_table_amended_witness :
    (("deal_name", "TEXT") : String × String) ∈ dataColumnDefs exBatchDeal ∧
    (("deal_name", "TEXT") : String × String).2 = "TEXT" :=
  ⟨by decide,
   (c5_create_table_amended exBatchDeal).1 ("deal_name", "TEXT") (by decide)⟩

/-- Membership in the INSERT column list of `load_data`. -/
theorem mem_loadColumns (data : List Rec) (c : String) :
    c ∈ loadColumns data ↔
      c ∈ collectKeys [] data ∨ c ∈ ["loaded_at", "source_system", "company_id"] := by
  unfold loadColumns
  rw [mem_sortStrings]
  have hfold : ∀ (more : List String) (ks : List String),
      c ∈ more.foldl addKey ks ↔ c ∈ ks ∨ c ∈ more := by
    intro more
    induction more with
    | nil => intro ks; simp
    | cons m ms ih =>
      intro ks
      rw [List.foldl_cons, ih, mem_addKey]
      constructor
      · rintro ((rfl | h) | h)
        · exact Or.inr (List.mem_cons_self _ _)
        · exact Or.inl h
        · exact Or.inr (List.mem_cons_of_mem m h)
      · rintro (h | h)
        · exact Or.inl (Or.inr h)
        · rcases List.mem_cons.mp h with rfl | h2
          · exact Or.inl (Or.inl rfl)
          · exact Or.inr h2
  exact hfold _ _

/-- C10: every row written by `load_data` goes to the schema named for
exactly the given `company_id` (`analytics_company_{company_id}`, the
table being that schema dot the lowered table name); the INSERT column
list contains the three metadata columns; and in every inserted row the
`loaded_at`, `source_system` and `company_id` cells are set from the
arguments of the loader itself — `rowCell` returns the metadata values for
those columns for EVERY record, so a source field whose normalized name
collides with a metadata column is overwritten. -/
theorem c10_tenant_isolation (tableName : String) (data : List Rec)
    (sourceSystem : String) (companyId : Nat) (now : String) (h : data ≠ []) :
    ∃ p, loadData tableName data sourceSystem companyId now = some p ∧
      p.schemaName = "analytics_company_" ++ toString companyId ∧
      p.fullTableName = p.schemaName ++ "." ++ lowerString tableName ∧
      ("loaded_at" ∈ p.columns ∧ "source_system" ∈ p.columns ∧
        "company_id" ∈ p.columns) ∧
      p.rows = data.map (fun r => p.columns.map (rowCell r sourceSystem companyId now)) ∧
      p.recordsLoaded = data.length ∧
      ∀ r : Rec,
        rowCell r sourceSystem companyId now ("loaded_at") = DbValue.timestamp now ∧
        rowCell r sourceSystem companyId now ("source_system")
          = DbValue.text sourceSystem ∧
        rowCell r sourceSystem companyId now ("company_id")
          = DbValue.intVal (companyId : Int) := by
  have hne : data.isEmpty = false := by
    cases data with
    | nil => exact absurd rfl h
    | cons r rs => rfl
  have hplan : loadData tableName data sourceSystem companyId now =
      some
        { schemaName := getAnalyticsSchemaName companyId,
          fullTableName := getAnalyticsSchemaName companyId ++ "." ++ lowerString tableName,
          columns := loadColumns data,
          rows := data.map
            (fun r => (loadColumns data).map (rowCell r sourceSystem companyId now)),
          recordsLoaded := data.length } := by
    simp [loadData, hne]
  refine ⟨_, hplan, rfl, rfl, ⟨?_, ?_, ?_⟩, rfl, rfl, fun r => ⟨rfl, rfl, rfl⟩⟩
  · exact (mem_loadColumns data ("loaded_at")).mpr (Or.inr (by decide))
  · exact (mem_loadColumns data ("source_system")).mpr (Or.inr (by decide))
  · exact (mem_loadColumns data ("company_id")).mpr (Or.inr (by decide))

/-- Witness for C10 at a concrete batch, tenant and timestamp. -/
theorem c10_tenant_isolation_witness :
    exBatch1 ≠ [] ∧
    ∃ p, loadData ("Account") exBatch1 ("salesforce") 7 ("2026-01-01T00:00:00")
        = some p ∧
      p.schemaName = "analytics_company_" ++ toString 7 ∧
      p.fullTableName = p.schemaName ++ "." ++ lowerString ("Account") ∧
      ("loaded_at" ∈ p.columns ∧ "source_system" ∈ p.columns ∧
        "company_id" ∈ p.columns) ∧
      p.rows = exBatch1.map
        (fun r => p.columns.map (rowCell r ("salesforce") 7 ("2026-01-01T00:00:00"))) ∧
      p.recordsLoaded = exBatch1.length ∧
      ∀ r : Rec,
        rowCell r ("salesforce") 7 ("2026-01-01T00:00:00") ("loaded_at")
          = DbValue.timestamp ("2026-01-01T00:00:00") ∧
        rowCell r ("salesforce") 7 ("2026-01-01T00:00:00") ("source_system")
          = DbValue.text ("salesforce") ∧
        rowCell r ("salesforce") 7 ("2026-01-01T00:00:00") ("company_id")
          = DbValue.intVal ((7 : Nat) : Int) :=
  ⟨by simp [exBatch1],
   c10_tenant_isolation ("Account") exBatch1 ("salesforce") 7 ("2026-01-01T00:00:00")
     (by simp [exBatch1])⟩

end Saulto
